import Mathlib

/-!
Shallow embedding of pump_radar_0830.py: the growth computation from the 48h
market chart (cg_get_market_chart_volumes_48h), the candidate selection loop
(build_candidates_from_api), and the data-row construction of the Excel report
(make_excel_report_0830, run_0830_once).

Numbers that the script handles as Python floats are embedded as rationals;
the network collaborators (CoinGecko markets and market_chart, LunarCrush) are
embedded as a fixed per-run snapshot of their responses.
-/

/-- Value of a field of a market listing as the expression float(x or 0) sees
it: a number, an absent field (None, coerced to 0 by the or), or a malformed
value on which float raises. -/
inductive FVal where
  | num (q : ℚ)
  | missing
  | bad
deriving DecidableEq, Repr

/-- Embedding of float(x or 0): absent fields become 0, malformed values raise
(Except.error stands for the raised exception). -/
def toFloat : FVal → Except Unit ℚ
  | .num q => .ok q
  | .missing => .ok 0
  | .bad => .error ()

/-- One market listing row as returned by cg_get_markets. Fields read with
c.get may be absent. -/
structure Coin where
  market_cap : FVal
  total_volume : FVal
  id : Option String
  symbol : Option String
  name : Option String
deriving DecidableEq, Repr

/-- Response of the market_chart endpoint for one coin: the HTTP status and
the total_volumes array of (timestamp, volume) pairs. -/
structure ChartResp where
  status : ℕ
  total_volumes : List (ℚ × ℚ)
deriving DecidableEq, Repr

/-- Pure part of cg_get_market_chart_volumes_48h on the volumes array: fewer
than 2 samples give (0, 0); otherwise the array is split at n // 2 and each
half is summed (sum v for _, v in vols). -/
def splitVolumes (vols : List (ℚ × ℚ)) : ℚ × ℚ :=
  if vols.length < 2 then (0, 0)
  else
    (((vols.take (vols.length / 2)).map Prod.snd).sum,
     ((vols.drop (vols.length / 2)).map Prod.snd).sum)

/-- Embedding of cg_get_market_chart_volumes_48h: a non-200 status (404, rate
limits 401/403/429, ...) yields (0.0, 0.0); otherwise the half sums of the
total_volumes array. A missing total_volumes key is the empty array. -/
def cg_get_market_chart_volumes_48h (resp : ChartResp) : ℚ × ℚ :=
  if resp.status ≠ 200 then (0, 0) else splitVolumes resp.total_volumes

/-- Growth computation of build_candidates_from_api from the fetched pair
(prev24, last24): the 0.0 sentinel when either half sum is non-positive,
otherwise (last24 - prev24) / prev24 * 100.0. -/
def growthOf (pl : ℚ × ℚ) : ℚ :=
  if pl.2 ≤ 0 ∨ pl.1 ≤ 0 then 0 else (pl.2 - pl.1) / pl.1 * 100

/-- Candidate record appended to out by build_candidates_from_api. -/
structure Candidate where
  name : String
  symbol : String
  market_cap : ℚ
  volume_24h : ℚ
  vol_growth_24h_pct : ℚ
  social_mentions_24h : ℤ
  sentiment_pct : ℚ
deriving DecidableEq, Repr

/-- Threshold parameters of build_candidates_from_api. The Python defaults are
mcap_max 50000000, vol_min 500000, vol_growth_min_pct 30.0,
social_mentions_min 100, sentiment_min 65.0. -/
structure Params where
  mcap_max : ℚ
  vol_min : ℚ
  vol_growth_min_pct : ℚ
  social_mentions_min : ℤ
  sentiment_min : ℚ
deriving DecidableEq, Repr

/-- Default arguments of build_candidates_from_api. -/
def defaultParams : Params :=
  { mcap_max := 50000000, vol_min := 500000, vol_growth_min_pct := 30,
    social_mentions_min := 100, sentiment_min := 65 }

/-- Snapshot of the external collaborators for one run: the market listing
page per page number (already past the error handling of cg_get_markets, which
turns any failure into an empty list), the market_chart response per coin id
(the id may be absent from the listing), and the (mentions, sentiment) pair
per symbol as returned by lc_get_social. -/
structure Snapshot where
  markets : ℕ → List Coin
  chart : Option String → ChartResp
  social : String → ℤ × ℚ

/-- Embedding of the Python str.upper for the ASCII symbols handled here. -/
def upperStr (s : String) : String := String.mk (s.data.map Char.toUpper)

/-- Body of the per-coin loop of build_candidates_from_api. Except.error
stands for an exception raised inside the try block (caught by the loop, coin
skipped), ok none for a coin rejected by a filter (continue), ok some for a
coin appended to out. The order of the checks is that of the source: market
cap and volume screen, growth threshold, social threshold. -/
def processCoin (sn : Snapshot) (p : Params) (c : Coin) :
    Except Unit (Option Candidate) :=
  match toFloat c.market_cap with
  | .error e => .error e
  | .ok mcap =>
    match toFloat c.total_volume with
    | .error e => .error e
    | .ok vol =>
      if ¬ (mcap < p.mcap_max ∧ vol > p.vol_min) then .ok none
      else
        let symbol := upperStr (c.symbol.getD "")
        let name := match c.name with
          | some nm => if nm = "" then symbol else nm
          | none => symbol
        let pl := cg_get_market_chart_volumes_48h (sn.chart c.id)
        let growth_pct := growthOf pl
        if growth_pct < p.vol_growth_min_pct then .ok none
        else
          let ms := sn.social symbol
          if ms.1 < p.social_mentions_min ∨ ms.2 < p.sentiment_min then .ok none
          else .ok (some
            { name := name, symbol := symbol, market_cap := mcap,
              volume_24h := pl.2, vol_growth_24h_pct := growth_pct,
              social_mentions_24h := ms.1, sentiment_pct := ms.2 })

/-- Modelled from the spec: the per-coin pass as the spec words it, with the
require_social flag of the SOCIAL_REQUIRED configuration entry, which the
source file does not read anywhere; when the flag is off no coin is rejected
on social grounds. Identical to processCoin except for the guarded social
screen. Used to compare the spec wording with the code. -/
def processCoin_spec (require_social : Bool) (sn : Snapshot) (p : Params)
    (c : Coin) : Except Unit (Option Candidate) :=
  match toFloat c.market_cap with
  | .error e => .error e
  | .ok mcap =>
    match toFloat c.total_volume with
    | .error e => .error e
    | .ok vol =>
      if ¬ (mcap < p.mcap_max ∧ vol > p.vol_min) then .ok none
      else
        let symbol := upperStr (c.symbol.getD "")
        let name := match c.name with
          | some nm => if nm = "" then symbol else nm
          | none => symbol
        let pl := cg_get_market_chart_volumes_48h (sn.chart c.id)
        let growth_pct := growthOf pl
        if growth_pct < p.vol_growth_min_pct then .ok none
        else
          let ms := sn.social symbol
          if require_social = true ∧
              (ms.1 < p.social_mentions_min ∨ ms.2 < p.sentiment_min) then
            .ok none
          else .ok (some
            { name := name, symbol := symbol, market_cap := mcap,
              volume_24h := pl.2, vol_growth_24h_pct := growth_pct,
              social_mentions_24h := ms.1, sentiment_pct := ms.2 })

/-- Contribution of one coin to out as the loop sees it: a raised and caught
exception and a filtered-out coin both contribute nothing. -/
def procOpt (sn : Snapshot) (p : Params) (c : Coin) : Option Candidate :=
  match processCoin sn p c with
  | .ok (some cand) => some cand
  | _ => none

/-- Spec-side counterpart of procOpt, built on processCoin_spec. -/
def procOpt_spec (require_social : Bool) (sn : Snapshot) (p : Params)
    (c : Coin) : Option Candidate :=
  match processCoin_spec require_social sn p c with
  | .ok (some cand) => some cand
  | _ => none

/-- Collection phase of build_candidates_from_api over the fetched coins, in
fetch order. -/
def collectCandidates (sn : Snapshot) (p : Params) (coins : List Coin) :
    List Candidate :=
  coins.filterMap (procOpt sn p)

/-- Page fetch loop of build_candidates_from_api: pages page, page + 1, ...
are requested while fuel pages remain; an empty page breaks the loop. -/
def fetchFrom (markets : ℕ → List Coin) : ℕ → ℕ → List Coin
  | _, 0 => []
  | page, fuel + 1 =>
    if markets page = [] then [] else markets page ++ fetchFrom markets (page + 1) fuel

/-- Coins gathered by build_candidates_from_api over pages 1..limit_pages. -/
def fetchCoins (markets : ℕ → List Coin) (limit_pages : ℕ) : List Coin :=
  fetchFrom markets 1 limit_pages

/-- Composite sort key of the final sort of build_candidates_from_api:
the Python tuple (vol_growth_24h_pct, volume_24h). -/
def sortKey (x : Candidate) : ℚ × ℚ := (x.vol_growth_24h_pct, x.volume_24h)

/-- Lexicographic comparison of Python tuples of two floats. -/
def lexLE (a b : ℚ × ℚ) : Bool :=
  decide (a.1 < b.1 ∨ (a.1 = b.1 ∧ a.2 ≤ b.2))

/-- Ordering used to embed out.sort(key=..., reverse=True): a is allowed
before b when the key of a is lexicographically at least the key of b. The
Python sort is stable and descending, which is exactly the stable mergeSort
under this relation. -/
def candLE (a b : Candidate) : Bool := lexLE (sortKey b) (sortKey a)

/-- Embedding of build_candidates_from_api: fetch the pages, run the filter
loop, sort out descending by the composite key (stable), return out[:5]. -/
def build_candidates_from_api (sn : Snapshot) (p : Params)
    (limit_pages : ℕ) : List Candidate :=
  ((collectCandidates sn p (fetchCoins sn.markets limit_pages)).mergeSort
    candLE).take 5

/-- Fields produced by ai_fields_for_coin for one candidate. -/
structure AiFields where
  utilitate : String
  red_flags : String
  verdict : String
deriving DecidableEq, Repr

/-- Fallback branch of ai_fields_for_coin when the OpenAI library or key is
absent: static text and verdict WATCH. -/
def ai_fields_fallback (c : Candidate) : AiFields :=
  { utilitate := c.name ++ " utilitate: n/a (fallback).",
    red_flags := "Volatilitate ridicata; lichiditate variabila.",
    verdict := "WATCH" }

/-- One data row of the Top 5 sheet written by make_excel_report_0830. -/
structure ReportRow where
  coin : String
  market_cap : ℚ
  volume_24h : ℚ
  growth : ℚ
  mentions : ℤ
  sentiment : ℚ
  utilitate : String
  red_flags : String
  verdict : String
deriving DecidableEq, Repr

/-- Data rows of make_excel_report_0830: exactly one row per candidate of
cands, enriched by the ai collaborator; the loop adds no other row, so an
empty candidate list yields an empty rows list (the sheet keeps only its
header). -/
def make_excel_rows (ai : Candidate → AiFields) (cands : List Candidate) :
    List ReportRow :=
  cands.map fun c =>
    { coin := c.name ++ " (" ++ c.symbol ++ ")",
      market_cap := c.market_cap, volume_24h := c.volume_24h,
      growth := c.vol_growth_24h_pct, mentions := c.social_mentions_24h,
      sentiment := c.sentiment_pct,
      utilitate := (ai c).utilitate, red_flags := (ai c).red_flags,
      verdict := (ai c).verdict }

/-- Embedding of run_0830_once: build the candidates with the default
thresholds and hand them, possibly empty, to make_excel_report_0830; the value
is the data rows of the emitted report. -/
def run_0830_once_rows (sn : Snapshot) (ai : Candidate → AiFields)
    (limit_pages : ℕ) : List ReportRow :=
  make_excel_rows ai (build_candidates_from_api sn defaultParams limit_pages)

/-- Snapshot in which the Market Data Source returns zero assets. -/
def snEmpty : Snapshot :=
  { markets := fun _ => [], chart := fun _ => ⟨200, []⟩,
    social := fun _ => (0, 0) }

/-- Coin whose listing volume fails the vol_min screen. -/
def coinLowVol : Coin :=
  { market_cap := .num 100, total_volume := .num 100, id := some "c1",
    symbol := some "CC", name := some "CoinOne" }

/-- Snapshot with a single listed coin that Tier 1 rejects. -/
def snLowVol : Snapshot :=
  { markets := fun page => if page = 1 then [coinLowVol] else [],
    chart := fun _ => ⟨200, []⟩, social := fun _ => (0, 0) }

/-- Coin that passes the market cap, volume and growth screens. -/
def coinPassing : Coin :=
  { market_cap := .num 1000000, total_volume := .num 600000, id := some "sf",
    symbol := some "SF", name := some "SocialFail" }

/-- Chart response with 400 percent half-to-half volume growth. -/
def chartGrowing : ChartResp := ⟨200, [(0, 100), (1, 100), (2, 500), (3, 500)]⟩

/-- Snapshot in which coinPassing has strong growth but zero social signal. -/
def snNoSocial : Snapshot :=
  { markets := fun page => if page = 1 then [coinPassing] else [],
    chart := fun _ => chartGrowing, social := fun _ => (0, 0) }

/-- Snapshot in which coinPassing has strong growth and a passing social
signal. -/
def snAllPass : Snapshot :=
  { markets := fun page => if page = 1 then [coinPassing] else [],
    chart := fun _ => chartGrowing, social := fun _ => (200, 80) }

/-- Coin with a malformed market_cap field, on which float raises. -/
def coinBadField : Coin :=
  { market_cap := .bad, total_volume := .num 600000, id := some "bf",
    symbol := some "BF", name := some "BadField" }

/-- Two coins that end with identical composite sort keys. -/
def coinTieA : Coin :=
  { market_cap := .num 1000000, total_volume := .num 600000, id := some "a",
    symbol := some "A", name := some "TieA" }

/-- Second coin of the tie pair; same chart and social data as coinTieA. -/
def coinTieB : Coin :=
  { market_cap := .num 1000000, total_volume := .num 600000, id := some "b",
    symbol := some "B", name := some "TieB" }

/-- Snapshot listing coinTieA then coinTieB, both passing every screen with
the same chart, hence equal composite keys. -/
def snTie : Snapshot :=
  { markets := fun page => if page = 1 then [coinTieA, coinTieB] else [],
    chart := fun _ => chartGrowing, social := fun _ => (200, 80) }

/-- Modelled from the spec: growth as the spec words it, from the arithmetic
means of the two halves of the series (prev_avg = mean of the previous half,
last_avg = mean of the last half, growth = (last_avg - prev_avg) / prev_avg *
100), with the same sentinel conditions. Used to compare the spec wording
with the half-sum computation of the code. -/
def growth_mean_spec (vols : List (ℚ × ℚ)) : ℚ :=
  if vols.length < 2 then 0
  else
    let prev_avg := ((vols.take (vols.length / 2)).map Prod.snd).sum /
      ((vols.length / 2 : ℕ) : ℚ)
    let last_avg := ((vols.drop (vols.length / 2)).map Prod.snd).sum /
      ((vols.length - vols.length / 2 : ℕ) : ℚ)
    if last_avg ≤ 0 ∨ prev_avg ≤ 0 then 0
    else (last_avg - prev_avg) / prev_avg * 100

/-- Odd length series on which half sums and half means disagree. -/
def volsOdd : List (ℚ × ℚ) := [(0, 1), (1, 1), (2, 1)]

/-- Even length series with positive strictly increasing volumes. -/
def volsEven : List (ℚ × ℚ) := [(0, 2), (1, 4)]

/-- Snapshot whose chart series has a single sample for every coin. -/
def snShort : Snapshot :=
  { markets := fun page => if page = 1 then [coinPassing] else [],
    chart := fun _ => ⟨200, [(0, 5)]⟩, social := fun _ => (200, 80) }

/-- Candidate that coinPassing becomes under snAllPass. -/
def candPass : Candidate :=
  { name := "SocialFail", symbol := "SF", market_cap := 1000000,
    volume_24h := 1000, vol_growth_24h_pct := 400,
    social_mentions_24h := 200, sentiment_pct := 80 }

/-- Candidate that coinTieA becomes under snTie. -/
def candTieA : Candidate :=
  { name := "TieA", symbol := "A", market_cap := 1000000,
    volume_24h := 1000, vol_growth_24h_pct := 400,
    social_mentions_24h := 200, sentiment_pct := 80 }

/-- Candidate that coinTieB becomes under snTie; same sort key as candTieA. -/
def candTieB : Candidate :=
  { name := "TieB", symbol := "B", market_cap := 1000000,
    volume_24h := 1000, vol_growth_24h_pct := 400,
    social_mentions_24h := 200, sentiment_pct := 80 }

lemma lexLE_trans {a b c : ℚ × ℚ} (hab : lexLE a b = true)
    (hbc : lexLE b c = true) : lexLE a c = true := by
  simp only [lexLE, decide_eq_true_eq] at hab hbc ⊢
  rcases hab with h1 | ⟨h1, h2⟩ <;> rcases hbc with h3 | ⟨h3, h4⟩
  · exact Or.inl (h1.trans h3)
  · exact Or.inl (h1.trans_eq h3)
  · exact Or.inl (h1.trans_lt h3)
  · exact Or.inr ⟨h1.trans h3, h2.trans h4⟩

lemma lexLE_total (a b : ℚ × ℚ) : (lexLE a b || lexLE b a) = true := by
  simp only [lexLE, Bool.or_eq_true, decide_eq_true_eq]
  rcases lt_trichotomy a.1 b.1 with h | h | h
  · exact Or.inl (Or.inl h)
  · rcases le_total a.2 b.2 with h2 | h2
    · exact Or.inl (Or.inr ⟨h, h2⟩)
    · exact Or.inr (Or.inr ⟨h.symm, h2⟩)
  · exact Or.inr (Or.inl h)

lemma candLE_trans (a b c : Candidate) (hab : candLE a b = true)
    (hbc : candLE b c = true) : candLE a c = true :=
  lexLE_trans hbc hab

lemma candLE_total (a b : Candidate) : (candLE a b || candLE b a) = true :=
  lexLE_total (sortKey b) (sortKey a)

/-- C1 counterexample: with a Market Data Source returning zero assets the
emitted report has zero data rows, not the claimed single placeholder row
with verdict WATCH. -/
theorem zero_assets_report_has_no_rows :
    run_0830_once_rows snEmpty ai_fields_fallback 1 = [] ∧
    (run_0830_once_rows snEmpty ai_fields_fallback 1).length ≠ 1 := by
  have h : run_0830_once_rows snEmpty ai_fields_fallback 1 = [] := by
    simp [run_0830_once_rows, make_excel_rows, build_candidates_from_api,
      collectCandidates, fetchCoins, fetchFrom, snEmpty]
  exact ⟨h, by simp [h]⟩

/-- C1 (amended): the report emitted by run_0830_once has exactly one data
row per selected candidate and no other row; with zero candidates it has
zero data rows (the sheet keeps only its header), there is no placeholder
row. -/
theorem report_rows_eq_candidates (sn : Snapshot) (ai : Candidate → AiFields)
    (lp : ℕ) :
    (run_0830_once_rows sn ai lp).length =
      (build_candidates_from_api sn defaultParams lp).length := by
  simp [run_0830_once_rows, make_excel_rows]

/-- C2 counterexample: a non-empty asset list whose only coin fails the
Tier 1 volume screen yields an empty candidate list; no Tier 2 pass exists
in the code. -/
theorem no_tier2_nonempty_assets_empty_output :
    fetchCoins snLowVol.markets 1 ≠ [] ∧
    build_candidates_from_api snLowVol defaultParams 1 = [] := by
  constructor
  · simp [fetchCoins, fetchFrom, snLowVol]
  · norm_num [build_candidates_from_api, collectCandidates, fetchCoins,
      fetchFrom, snLowVol, procOpt, processCoin, toFloat, coinLowVol,
      defaultParams]

/-- C2 (amended): the selector has no Tier 2 pass: whenever the filter pass
over the fetched assets yields zero candidates, build_candidates_from_api
returns the empty list, so a non-empty asset list can yield an empty
candidate list. -/
theorem empty_tier1_gives_empty_output (sn : Snapshot) (p : Params) (lp : ℕ)
    (h : collectCandidates sn p (fetchCoins sn.markets lp) = []) :
    build_candidates_from_api sn p lp = [] := by
  simp [build_candidates_from_api, h]

/-- C2 witness: the amended statement at the concrete one-coin snapshot. -/
theorem empty_tier1_gives_empty_output_witness :
    build_candidates_from_api snLowVol defaultParams 1 = [] :=
  empty_tier1_gives_empty_output snLowVol defaultParams 1 (by
    norm_num [collectCandidates, fetchCoins, fetchFrom, snLowVol, procOpt,
      processCoin, toFloat, coinLowVol, defaultParams])

/-- C9: a per-asset exception is caught and only skips that asset (the run
over the remaining assets is unchanged and still returns a list), and a
non-200 market chart response (401/403/429 rate limits included) degrades to
the pair (0, 0), whose growth is the 0.0 sentinel, without raising. -/
theorem per_asset_error_skipped_and_rate_limit_sentinel :
    (∀ (sn : Snapshot) (p : Params) (pre post : List Coin) (c : Coin),
      processCoin sn p c = .error () →
      collectCandidates sn p (pre ++ c :: post) =
        collectCandidates sn p (pre ++ post)) ∧
    (∀ resp : ChartResp, resp.status ≠ 200 →
      cg_get_market_chart_volumes_48h resp = (0, 0) ∧
      growthOf (cg_get_market_chart_volumes_48h resp) = 0) := by
  constructor
  · intro sn p pre post c h
    simp [collectCandidates, List.filterMap_append, List.filterMap_cons,
      procOpt, h]
  · intro resp h
    have hcg : cg_get_market_chart_volumes_48h resp = (0, 0) := by
      unfold cg_get_market_chart_volumes_48h
      rw [if_pos h]
    exact ⟨hcg, by rw [hcg]; norm_num [growthOf]⟩

/-- C9 witness: the skip conjunct at a coin with a malformed market_cap
field and the sentinel conjunct at a rate-limited response. -/
theorem per_asset_error_skipped_witness :
    collectCandidates snAllPass defaultParams ([] ++ coinBadField :: []) =
      collectCandidates snAllPass defaultParams ([] ++ []) ∧
    cg_get_market_chart_volumes_48h ⟨429, [(0, 1), (1, 2)]⟩ = (0, 0) ∧
    growthOf (cg_get_market_chart_volumes_48h ⟨429, [(0, 1), (1, 2)]⟩) = 0 :=
  ⟨per_asset_error_skipped_and_rate_limit_sentinel.1 snAllPass defaultParams
      [] [] coinBadField rfl,
    per_asset_error_skipped_and_rate_limit_sentinel.2 ⟨429, [(0, 1), (1, 2)]⟩
      (by norm_num)⟩

/-- C4 counterexample: a coin that passes the market cap, volume and growth
screens but has zero social signal is rejected by the code, while the spec
selector with require_social disabled keeps it: the social screen of the code
is not conditional on any flag. -/
theorem social_screen_not_optional :
    procOpt snNoSocial defaultParams coinPassing = none ∧
    (procOpt_spec false snNoSocial defaultParams coinPassing).isSome = true := by
  constructor
  · norm_num [procOpt, processCoin, toFloat, snNoSocial, coinPassing,
      defaultParams, cg_get_market_chart_volumes_48h, chartGrowing,
      splitVolumes, growthOf]
  · norm_num [procOpt_spec, processCoin_spec, toFloat, snNoSocial,
      coinPassing, defaultParams, cg_get_market_chart_volumes_48h,
      chartGrowing, splitVolumes, growthOf]

/-- C4 (amended): the Tier 1 social screen is unconditional: the code rejects
every asset with mention_count below social_min or sentiment below
sentiment_min, behaving exactly as the spec selector with require_social
permanently enabled; no SOCIAL_REQUIRED configuration flag is read. -/
theorem social_screen_always_applied (sn : Snapshot) (p : Params) (c : Coin) :
    processCoin_spec true sn p c = processCoin sn p c := by
  simp only [processCoin_spec, processCoin, true_and]

/-- C6: a volume series with fewer than 2 samples yields the growth sentinel
0.0, and a coin whose chart series is that short contributes nothing to the
Tier 1 output whenever the growth threshold is positive. -/
theorem short_series_sentinel_and_excluded :
    (∀ vols : List (ℚ × ℚ), vols.length < 2 →
      growthOf (splitVolumes vols) = 0) ∧
    (∀ (sn : Snapshot) (p : Params) (c : Coin), 0 < p.vol_growth_min_pct →
      ((sn.chart c.id).total_volumes).length < 2 →
      procOpt sn p c = none) := by
  have hsent : ∀ vols : List (ℚ × ℚ), vols.length < 2 →
      growthOf (splitVolumes vols) = 0 := by
    intro vols h
    simp [splitVolumes, h, growthOf]
  refine ⟨hsent, ?_⟩
  intro sn p c hpos hlen
  have hg : growthOf (cg_get_market_chart_volumes_48h (sn.chart c.id)) = 0 := by
    by_cases hst : (sn.chart c.id).status = 200
    · unfold cg_get_market_chart_volumes_48h
      rw [if_neg (by simp [hst])]
      exact hsent _ hlen
    · unfold cg_get_market_chart_volumes_48h
      rw [if_pos hst]
      norm_num [growthOf]
  unfold procOpt processCoin
  cases htf : toFloat c.market_cap with
  | error e => simp
  | ok mcap =>
    cases htv : toFloat c.total_volume with
    | error e => simp
    | ok vol =>
      simp only [hg]
      by_cases hsc : mcap < p.mcap_max ∧ vol > p.vol_min
      · rw [if_neg (not_not_intro hsc), if_pos hpos]
      · rw [if_pos hsc]

/-- C6 witness: the exclusion conjunct at a snapshot whose chart series has a
single sample for a coin that passes the market cap and volume screens. -/
theorem short_series_sentinel_and_excluded_witness :
    growthOf (splitVolumes [((0:ℚ), (5:ℚ))]) = 0 ∧
    procOpt snShort defaultParams coinPassing = none :=
  ⟨short_series_sentinel_and_excluded.1 [((0:ℚ), (5:ℚ))] (by norm_num),
    short_series_sentinel_and_excluded.2 snShort defaultParams coinPassing
      (by norm_num [defaultParams]) (by norm_num [snShort])⟩

/-- C5: the selector output is sorted descending by the composite key
(growth_pct first, volume as tie break), holds at most 5 = TOP_FALLBACK
candidates, and is drawn from the candidates the filter pass produced. -/
theorem final_sort_and_truncate (sn : Snapshot) (p : Params) (lp : ℕ) :
    (build_candidates_from_api sn p lp).length ≤ 5 ∧
    (build_candidates_from_api sn p lp).Pairwise
      (fun a b => candLE a b = true) ∧
    (build_candidates_from_api sn p lp).Subperm
      (collectCandidates sn p (fetchCoins sn.markets lp)) := by
  refine ⟨?_, ?_, ?_⟩
  · simp only [build_candidates_from_api, List.length_take]
    omega
  · have hs := @List.sorted_mergeSort Candidate candLE candLE_trans
      candLE_total (collectCandidates sn p (fetchCoins sn.markets lp))
    exact List.Pairwise.sublist (List.take_sublist 5 _) hs
  · exact ((List.take_sublist 5 _).subperm).trans
      ((List.mergeSort_perm _ candLE).subperm)

/-- C8: given equal snapshots and configurations two runs of the selector
produce identical candidate lists, and the final sort is stable: two
candidates with equal composite keys that the filter pass produced in fetch
order stay in that order in the sorted list. -/
theorem selector_deterministic_and_stable :
    (∀ (sn1 sn2 : Snapshot) (p1 p2 : Params) (n1 n2 : ℕ),
      sn1 = sn2 → p1 = p2 → n1 = n2 →
      build_candidates_from_api sn1 p1 n1 =
        build_candidates_from_api sn2 p2 n2) ∧
    (∀ (sn : Snapshot) (p : Params) (lp : ℕ) (a b : Candidate),
      sortKey a = sortKey b →
      [a, b].Sublist (collectCandidates sn p (fetchCoins sn.markets lp)) →
      [a, b].Sublist
        ((collectCandidates sn p (fetchCoins sn.markets lp)).mergeSort
          candLE)) := by
  constructor
  · rintro sn1 sn2 p1 p2 n1 n2 rfl rfl rfl
    rfl
  · intro sn p lp a b hk hsub
    refine List.sublist_mergeSort candLE_trans candLE_total ?_ hsub
    have hle : candLE a b = true := by
      simp [candLE, lexLE, hk]
    simp [List.pairwise_cons, hle]

/-- C8 witness: the stability conjunct at a snapshot with two coins that end
with identical composite keys; the filter pass lists them in fetch order and
the sorted list keeps that order. -/
theorem selector_deterministic_and_stable_witness :
    [candTieA, candTieB].Sublist
      ((collectCandidates snTie defaultParams
        (fetchCoins snTie.markets 1)).mergeSort candLE) := by
  refine selector_deterministic_and_stable.2 snTie defaultParams 1 candTieA
    candTieB (by norm_num [sortKey, candTieA, candTieB]) ?_
  have hupA : upperStr "A" = "A" := by decide
  have hupB : upperStr "B" = "B" := by decide
  have hnA : ("TieA" : String) ≠ "" := by decide
  have hnB : ("TieB" : String) ≠ "" := by decide
  have hf : fetchCoins snTie.markets 1 = [coinTieA, coinTieB] := by
    simp [fetchCoins, fetchFrom, snTie]
  have hA : procOpt snTie defaultParams coinTieA = some candTieA := by
    norm_num [procOpt, processCoin, toFloat, snTie, coinTieA, defaultParams,
      cg_get_market_chart_volumes_48h, chartGrowing, splitVolumes, growthOf,
      hupA, hnA, candTieA, Candidate.mk.injEq]
  have hB : procOpt snTie defaultParams coinTieB = some candTieB := by
    norm_num [procOpt, processCoin, toFloat, snTie, coinTieB, defaultParams,
      cg_get_market_chart_volumes_48h, chartGrowing, splitVolumes, growthOf,
      hupB, hnB, candTieB, Candidate.mk.injEq]
  have h : collectCandidates snTie defaultParams (fetchCoins snTie.markets 1) =
      [candTieA, candTieB] := by
    rw [collectCandidates, hf]
    simp [List.filterMap_cons, hA, hB]
  rw [h]

/-- C3 counterexample: on the odd length series volsOdd = [1, 1, 1] both
halves have positive averages, yet the code returns the half-sum based value
100 while the mean-based value of the spec is 0: the estimator does not
return the mean-based growth for odd lengths. -/
theorem growth_uses_sums_not_means :
    growthOf (cg_get_market_chart_volumes_48h ⟨200, volsOdd⟩) = 100 ∧
    growth_mean_spec volsOdd = 0 ∧
    growthOf (cg_get_market_chart_volumes_48h ⟨200, volsOdd⟩) ≠
      growth_mean_spec volsOdd := by
  have h1 : growthOf (cg_get_market_chart_volumes_48h ⟨200, volsOdd⟩) = 100 := by
    norm_num [cg_get_market_chart_volumes_48h, splitVolumes, growthOf, volsOdd]
  have h2 : growth_mean_spec volsOdd = 0 := by
    norm_num [growth_mean_spec, volsOdd]
  exact ⟨h1, h2, by rw [h1, h2]; norm_num⟩

/-- C3 (amended): for a series with at least 2 samples whose two halves have
positive sums, the growth is (last_sum - prev_sum) / prev_sum * 100 computed
from the half sums, not the half means; the two formulas agree exactly when
the length is even, the halves then having equal sizes. -/
theorem growth_halfsum_formula (vols : List (ℚ × ℚ)) (h2 : 2 ≤ vols.length)
    (hp : 0 < ((vols.take (vols.length / 2)).map Prod.snd).sum)
    (hl : 0 < ((vols.drop (vols.length / 2)).map Prod.snd).sum) :
    growthOf (splitVolumes vols) =
      (((vols.drop (vols.length / 2)).map Prod.snd).sum -
       ((vols.take (vols.length / 2)).map Prod.snd).sum) /
      ((vols.take (vols.length / 2)).map Prod.snd).sum * 100 ∧
    (vols.length % 2 = 0 →
      growthOf (splitVolumes vols) = growth_mean_spec vols) := by
  set S1 := ((vols.take (vols.length / 2)).map Prod.snd).sum with hS1
  set S2 := ((vols.drop (vols.length / 2)).map Prod.snd).sum with hS2
  have hnl : ¬ vols.length < 2 := by omega
  have hsplit : splitVolumes vols = (S1, S2) := by
    rw [splitVolumes, if_neg hnl]
  have hgrow : growthOf (splitVolumes vols) = (S2 - S1) / S1 * 100 := by
    rw [hsplit, growthOf, if_neg (by push_neg; exact ⟨hl, hp⟩)]
  refine ⟨hgrow, ?_⟩
  intro heven
  have hhalfpos : 0 < vols.length / 2 := by omega
  have hsub : vols.length - vols.length / 2 = vols.length / 2 := by omega
  have hcast : (0:ℚ) < ((vols.length / 2 : ℕ) : ℚ) := by exact_mod_cast hhalfpos
  have hpa : 0 < S1 / ((vols.length / 2 : ℕ) : ℚ) := div_pos hp hcast
  have hla : 0 < S2 / ((vols.length / 2 : ℕ) : ℚ) := div_pos hl hcast
  simp only [growth_mean_spec, hsub, if_neg hnl, ← hS1, ← hS2]
  rw [if_neg (by push_neg; exact ⟨hla, hpa⟩), hgrow]
  have hS1ne : S1 ≠ 0 := ne_of_gt hp
  have hhne : ((vols.length / 2 : ℕ) : ℚ) ≠ 0 := ne_of_gt hcast
  field_simp

/-- C3 witness: the amended statement at the even series volsEven, on which
the half-sum growth is also the mean-based growth. -/
theorem growth_halfsum_formula_witness :
    growthOf (splitVolumes volsEven) =
      (((volsEven.drop (volsEven.length / 2)).map Prod.snd).sum -
       ((volsEven.take (volsEven.length / 2)).map Prod.snd).sum) /
      ((volsEven.take (volsEven.length / 2)).map Prod.snd).sum * 100 ∧
    growthOf (splitVolumes volsEven) = growth_mean_spec volsEven :=
  ⟨(growth_halfsum_formula volsEven (by norm_num [volsEven])
      (by norm_num [volsEven]) (by norm_num [volsEven])).1,
    (growth_halfsum_formula volsEven (by norm_num [volsEven])
      (by norm_num [volsEven]) (by norm_num [volsEven])).2
      (by norm_num [volsEven])⟩

lemma sum_le_sum_forall2 {l1 l2 : List ℚ}
    (h : List.Forall₂ (· < ·) l1 l2) : l1.sum ≤ l2.sum := by
  induction h with
  | nil => simp
  | cons hab htail ih =>
    simp only [List.sum_cons]
    exact add_le_add hab.le ih

lemma sum_lt_sum_forall2 {l1 l2 : List ℚ}
    (h : List.Forall₂ (· < ·) l1 l2) (hne : l1 ≠ []) : l1.sum < l2.sum := by
  cases h with
  | nil => exact absurd rfl hne
  | cons hab htail =>
    simp only [List.sum_cons]
    exact add_lt_add_of_lt_of_le hab (sum_le_sum_forall2 htail)

lemma forall2_take_drop {l : List ℚ} {m : ℕ} (hlen : l.length = 2 * m)
    (hm : 0 < m) (hpw : l.Pairwise (· < ·)) :
    List.Forall₂ (· < ·) (l.take m) (l.drop m) := by
  rw [List.forall₂_iff_get]
  constructor
  · simp only [List.length_take, List.length_drop, hlen]
    omega
  · intro i h1 h2
    have hi : i < m := by
      simp only [List.length_take, hlen] at h1
      omega
    have h1l : i < l.length := by omega
    have h2l : m + i < l.length := by
      simp only [List.length_drop, hlen] at h2
      omega
    have hg := List.pairwise_iff_get.mp hpw ⟨i, h1l⟩ ⟨m + i, h2l⟩
      (by simp only [Fin.mk_lt_mk]; omega)
    simpa [List.get_eq_getElem, List.getElem_take, List.getElem_drop] using hg

/-- C7 counterexample: the two-sample series [(0, 0), (1, 5)] has even length
2, non-negative strictly increasing volumes, yet its growth is the sentinel 0,
not a positive number, because the first half sums to 0. -/
theorem increasing_from_zero_growth_zero :
    (([((0:ℚ), (0:ℚ)), (1, 5)]).Pairwise (fun a b => a.2 < b.2)) ∧
    (∀ v ∈ ([((0:ℚ), (0:ℚ)), (1, 5)] : List (ℚ × ℚ)), 0 ≤ v.2) ∧
    growthOf (cg_get_market_chart_volumes_48h
      ⟨200, [((0:ℚ), (0:ℚ)), (1, 5)]⟩) = 0 := by
  refine ⟨by decide, by decide, ?_⟩
  norm_num [cg_get_market_chart_volumes_48h, splitVolumes, growthOf]

/-- C7 (amended): a successfully fetched series of even length 2m with m at
least 1 whose volumes are strictly increasing and positive has growth
strictly greater than 0. -/
theorem increasing_positive_growth_pos (resp : ChartResp) (m : ℕ)
    (hs : resp.status = 200) (hm : 0 < m)
    (hlen : resp.total_volumes.length = 2 * m)
    (hpw : resp.total_volumes.Pairwise (fun a b => a.2 < b.2))
    (hpos : ∀ v ∈ resp.total_volumes, 0 < v.2) :
    0 < growthOf (cg_get_market_chart_volumes_48h resp) := by
  have hcg : cg_get_market_chart_volumes_48h resp =
      splitVolumes resp.total_volumes := by
    rw [cg_get_market_chart_volumes_48h, if_neg (by simp [hs])]
  have hnl : ¬ resp.total_volumes.length < 2 := by omega
  have hhalf : resp.total_volumes.length / 2 = m := by omega
  set l := resp.total_volumes.map Prod.snd with hldef
  have hlpw : l.Pairwise (· < ·) := List.pairwise_map.mpr hpw
  have hllen : l.length = 2 * m := by simp [hldef, hlen]
  have hf2 : List.Forall₂ (· < ·) (l.take m) (l.drop m) :=
    forall2_take_drop hllen hm hlpw
  have htake_ne : l.take m ≠ [] := by
    refine List.ne_nil_of_length_pos ?_
    simp only [List.length_take, hllen]
    omega
  have hS1pos : 0 < (l.take m).sum := by
    refine List.sum_pos _ ?_ htake_ne
    intro x hx
    obtain ⟨v, hvmem, hveq⟩ := List.mem_map.mp (List.mem_of_mem_take hx)
    exact hveq ▸ hpos v hvmem
  have hS1S2 : (l.take m).sum < (l.drop m).sum := sum_lt_sum_forall2 hf2 htake_ne
  have hsplit : splitVolumes resp.total_volumes =
      ((l.take m).sum, (l.drop m).sum) := by
    rw [splitVolumes, if_neg hnl, hhalf]
    simp [hldef, List.map_take, List.map_drop]
  rw [hcg, hsplit, growthOf,
    if_neg (by push_neg; exact ⟨hS1pos.trans hS1S2, hS1pos⟩)]
  exact mul_pos (div_pos (sub_pos.mpr hS1S2) hS1pos) (by norm_num)

/-- C7 witness: the amended statement at the series [(0, 1), (1, 2)]. -/
theorem increasing_positive_growth_pos_witness :
    0 < growthOf (cg_get_market_chart_volumes_48h
      ⟨200, [((0:ℚ), (1:ℚ)), (1, 2)]⟩) :=
  increasing_positive_growth_pos ⟨200, [((0:ℚ), (1:ℚ)), (1, 2)]⟩ 1 rfl
    one_pos (by decide) (by decide) (by decide)

/-- C10: a candidate emitted by the filter pass under a positive growth
threshold carries, as its volume_24h field, the sum of the later half of the
fetched chart series, not the listing total_volume that was screened against
vol_min, and that figure is strictly positive; the two figures can differ, as
coinPassing under snAllPass shows (later half sum 1000 versus listing volume
600000). -/
theorem tier1_volume_is_later_half_sum :
    (∀ (sn : Snapshot) (p : Params) (c : Coin) (cand : Candidate),
      0 < p.vol_growth_min_pct →
      processCoin sn p c = .ok (some cand) →
      cand.volume_24h =
        (((sn.chart c.id).total_volumes.drop
          ((sn.chart c.id).total_volumes.length / 2)).map Prod.snd).sum ∧
      0 < cand.volume_24h) ∧
    ((procOpt snAllPass defaultParams coinPassing).map
        (fun cd => cd.volume_24h) = some 1000 ∧
      toFloat coinPassing.total_volume = .ok 600000 ∧
      ((1000:ℚ)) ≠ 600000) := by
  constructor
  · intro sn p c cand hpos h
    unfold processCoin at h
    split at h
    · exact Except.noConfusion h
    · split at h
      · exact Except.noConfusion h
      · dsimp only at h
        split at h
        · simp at h
        · split at h
          · simp at h
          · split at h
            · simp at h
            · rename_i hscreen hgr hso
              simp only [Except.ok.injEq, Option.some.injEq] at h
              subst h
              dsimp only
              have hg0 : 0 < growthOf
                  (cg_get_market_chart_volumes_48h (sn.chart c.id)) :=
                lt_of_lt_of_le hpos (not_lt.mp hgr)
              have hnsent : ¬ ((cg_get_market_chart_volumes_48h
                    (sn.chart c.id)).2 ≤ 0 ∨
                  (cg_get_market_chart_volumes_48h (sn.chart c.id)).1 ≤ 0) := by
                intro hbad
                rw [growthOf, if_pos hbad] at hg0
                exact lt_irrefl 0 hg0
              push_neg at hnsent
              obtain ⟨hpl2, hpl1⟩ := hnsent
              have hst : (sn.chart c.id).status = 200 := by
                by_contra hne
                rw [cg_get_market_chart_volumes_48h, if_pos hne] at hpl2
                norm_num at hpl2
              have hcg : cg_get_market_chart_volumes_48h (sn.chart c.id) =
                  splitVolumes (sn.chart c.id).total_volumes := by
                rw [cg_get_market_chart_volumes_48h, if_neg (by simp [hst])]
              have hlen : ¬ (sn.chart c.id).total_volumes.length < 2 := by
                intro hlt
                rw [hcg, splitVolumes, if_pos hlt] at hpl2
                norm_num at hpl2
              refine ⟨?_, hpl2⟩
              rw [hcg, splitVolumes, if_neg hlen]
  · have hup : upperStr "SF" = "SF" := by decide
    have hnn : ("SocialFail" : String) ≠ "" := by decide
    refine ⟨?_, rfl, by norm_num⟩
    norm_num [procOpt, processCoin, toFloat, snAllPass, coinPassing,
      defaultParams, cg_get_market_chart_volumes_48h, chartGrowing,
      splitVolumes, growthOf, hup, hnn]

/-- C10 witness: the universal conjunct at coinPassing under snAllPass, whose
candidate is candPass with volume_24h equal to the later half sum 1000. -/
theorem tier1_volume_is_later_half_sum_witness :
    candPass.volume_24h =
      (((snAllPass.chart coinPassing.id).total_volumes.drop
        ((snAllPass.chart coinPassing.id).total_volumes.length / 2)).map
        Prod.snd).sum ∧
    0 < candPass.volume_24h := by
  refine tier1_volume_is_later_half_sum.1 snAllPass defaultParams coinPassing
    candPass (by norm_num [defaultParams]) ?_
  have hup : upperStr "SF" = "SF" := by decide
  have hnn : ("SocialFail" : String) ≠ "" := by decide
  norm_num [processCoin, toFloat, snAllPass, coinPassing, defaultParams,
    cg_get_market_chart_volumes_48h, chartGrowing, splitVolumes, growthOf,
    hup, hnn, candPass, Candidate.mk.injEq]
